import Mathlib

/-!
Verification of the `broadcast-box` room/SFU core (Go sources under
`internal/room/`): a shallow embedding of the session-based room model
(`room.go`), the WHEP egress path (`whep.go`) and the WHIP ingress path
(`whip.go`), together with theorems settling the specification claims.

Machine integers are modelled as `Nat` with explicit reduction modulo
`2 ^ 16` (uint16) and `2 ^ 32` (uint32) at the operations where Go
overflow semantics matter.  Go maps are modelled as association lists
keyed by id; map iteration order is arbitrary in Go, and the modelled
claims do not depend on it.  Peer connections, tracks and the WebRTC
stack are external collaborators: their operations are modelled as
succeeding, and the data the core feeds them is recorded explicitly.
-/

namespace BroadcastBox

/-! ### RTP packets and per-viewer egress state (`whep.go`) -/

/-- The fields of `rtp.Packet` that `sendVideoPacket` reads or rewrites
(`whep.go`: `rtpPkt.SequenceNumber`, `rtpPkt.Timestamp`); the payload and
remaining header fields are carried through untouched and kept abstract
as an opaque `Nat` tag. -/
structure RtpPacket where
  sequenceNumber : Nat
  timestamp : Nat
  payload : Nat
  deriving Repr, DecidableEq

/-- `whepSession` (`whep.go` lines 16-22): per-viewer egress state.  The
`videoTrack` and `peerConn` fields are external handles and are not part
of the forwarding-relevant state. -/
structure WhepSessionState where
  currentLayer : String
  sequenceNumber : Nat
  timestamp : Nat
  deriving Repr, DecidableEq

/-- The `whepSession` literal built by `WHEP` (`whep.go` lines 149-154):
`timestamp: 50000`, `sequenceNumber` left at its Go zero value `0`, and
`currentLayer.Store("")`. -/
def newWhepSession : WhepSessionState :=
  { currentLayer := "", sequenceNumber := 0, timestamp := 50000 }

/-- The fall-through tail of `sendVideoPacket` (`whep.go` lines 166-175):
`w.sequenceNumber += 1` on uint16, `w.timestamp += timeDiff` on uint32,
copy both into the packet, and `videoTrack.WriteRTP(rtpPkt, isAV1)`.
The write to the external egress track is modelled as succeeding; the
written packet and the AV1 flag passed alongside it are returned. -/
def sendForward (w : WhepSessionState) (rtpPkt : RtpPacket) (timeDiff : Nat)
    (isAV1 : Bool) : WhepSessionState × Option (RtpPacket × Bool) :=
  let seq := (w.sequenceNumber + 1) % 2 ^ 16
  let ts := (w.timestamp + timeDiff) % 2 ^ 32
  ({ w with sequenceNumber := seq, timestamp := ts },
   some ({ rtpPkt with sequenceNumber := seq, timestamp := ts }, isAV1))

/-- `whepSession.sendVideoPacket` (`whep.go` lines 159-176).  If the
stored layer is empty it latches the packet's layer and falls through to
forwarding; if the packet's layer differs from the stored layer it
returns `nil` without touching any state (the dropped case, second
component `none`); otherwise it forwards. -/
def sendVideoPacket (w : WhepSessionState) (rtpPkt : RtpPacket) (layer : String)
    (timeDiff : Nat) (isAV1 : Bool) : WhepSessionState × Option (RtpPacket × Bool) :=
  if w.currentLayer = "" then
    sendForward { w with currentLayer := layer } rtpPkt timeDiff isAV1
  else if layer ≠ w.currentLayer then
    (w, none)
  else
    sendForward w rtpPkt timeDiff isAV1

/-! ### The video forwarder's timestamp delta (`whip.go` lines 57-73) -/

/-- Wrapping uint32 subtraction `a - b` for `a b < 2 ^ 32`. -/
def wrapSub32 (a b : Nat) : Nat :=
  (a + 2 ^ 32 - b) % 2 ^ 32

/-- The `timeDiff` computation of `videoWriter`'s read loop (`whip.go`
lines 59-73) applied to the sequence of unmarshalled packet timestamps:
`timeDiff := rtpPkt.Timestamp - lastTimestamp` (uint32), zeroed when
`lastTimestamp == 0`, then `lastTimestamp = rtpPkt.Timestamp`.  The
entry point uses `lastTimestamp := uint32(0)`. -/
def videoWriterTimeDiffs : Nat → List Nat → List Nat
  | _, [] => []
  | lastTimestamp, ts :: rest =>
    let timeDiff := wrapSub32 ts lastTimestamp
    let timeDiff := if lastTimestamp = 0 then 0 else timeDiff
    timeDiff :: videoWriterTimeDiffs ts rest

/-! ### AV1 detection (`whip.go` lines 51-55) -/

/-- `webrtc.MimeTypeAV1` from pion/webrtc/v3. -/
def mimeTypeAV1 : String := "video/AV1"

/-- Mirror of Go `strings.HasPrefix(text, pat)` on character lists:
`charsHasStart pat text` is true when `text` starts with `pat`. -/
def charsHasStart : List Char → List Char → Bool
  | [], _ => true
  | _ :: _, [] => false
  | p :: ps, t :: ts => p = t && charsHasStart ps ts

/-- Mirror of Go `strings.Contains(text, pat)` on character lists:
true when `pat` occurs contiguously inside `text` (always true for an
empty `pat`). -/
def charsContains : List Char → List Char → Bool
  | [], pat => pat.isEmpty
  | t :: ts, pat => charsHasStart pat (t :: ts) || charsContains ts pat

/-- Go `strings.ToLower` viewed as a character list (MIME strings are
ASCII, where `Char.toLower` agrees with Go's Unicode lowering). -/
def lowerChars (s : String) : List Char :=
  s.toList.map Char.toLower

/-- The `isAV1` computation of `videoWriter` (`whip.go` lines 51-55):
`strings.Contains(strings.ToLower(webrtc.MimeTypeAV1), strings.ToLower(mime))`
— note the argument order: it asks whether the lower-cased track MIME
type occurs inside the lower-cased AV1 MIME type. -/
def isAV1 (mime : String) : Bool :=
  charsContains (lowerChars mimeTypeAV1) (lowerChars mime)

/-- `pat` occurs contiguously inside `text` (the propositional
counterpart of `charsContains`). -/
def OccursIn (pat text : List Char) : Prop :=
  ∃ s u, text = s ++ pat ++ u

/-! ### The room registry (`room.go`)

Sessions and users carry `uuid.New()` identifiers; freshness is modelled
by a counter `nextId` in the registry state.  A `Session` holds a
pointer to its shared `User`; the model keys users by id in a separate
store (`Registry.users`) so that mutations of a user's stream-slot are
visible through every session of that user, as they are through the
shared Go pointer.

`User.stream` is a Go `atomic.Value`.  Loading it yields a `nil`
interface only when nothing was ever stored; `newUser` stores a typed
nil `(*userStream)(nil)`, which loads as a non-nil interface holding a
nil pointer.  The slot is therefore modelled as `Option (Option UserStream)`:
the outer layer is whether the `atomic.Value` was ever stored, the inner
layer whether the stored `*userStream` pointer is nil. -/

/-- A viewer entry of `userStream.viewers`, keyed by the viewing
session's id. -/
abbrev Viewers := List (Nat × WhepSessionState)

/-- `userStream` (`room.go` lines 228-236).  `pliChan` is a buffered
channel of capacity 50 used purely as a signal; it is modelled by the
number of pending signals.  `peerConn` and `audioTrack` are external
handles. -/
structure UserStream where
  pliChan : Nat
  videoTrackLabels : List String
  viewers : Viewers
  deriving Repr, DecidableEq

/-- `User` (`room.go` lines 210-217): id, auth token and the stream
slot (see the module comment for the two-level `Option`). -/
structure UserRec where
  id : Nat
  authToken : String
  streamSlot : Option (Option UserStream)
  deriving Repr, DecidableEq

/-- `newUser` (`room.go` lines 219-226): fresh id, given token, and
`user.stream.Store((*userStream)(nil))` — the slot holds a typed nil. -/
def newUser (uid : Nat) (authToken : String) : UserRec :=
  { id := uid, authToken := authToken, streamSlot := some none }

/-- `Session` (`room.go` lines 201-205): id and the owning user
(modelled by id into the user store).  The 32-slot event channel's
contents are not needed by the claims; whether it has been closed is
tracked in `Registry.closedQueues`. -/
structure Session where
  id : Nat
  userId : Nat
  deriving Repr, DecidableEq

/-- `Room` (`room.go` lines 23-28): the session map, keyed by session
id. -/
structure RoomState where
  sessions : List Session
  deriving Repr, DecidableEq

/-- The process-wide state: `roomMap` (`room.go` line 15) keyed by room
id, the store of live `User` records, the set of session ids whose
event channel has been `close`d, and the freshness counter. -/
structure Registry where
  rooms : List (String × RoomState)
  users : List UserRec
  closedQueues : List Nat
  nextId : Nat
  deriving Repr, DecidableEq

/-- The empty registry at process start. -/
def initRegistry : Registry :=
  { rooms := [], users := [], closedQueues := [], nextId := 0 }

/-- Lookup `roomMap[roomId]`. -/
def lookupRoom (rooms : List (String × RoomState)) (roomId : String) : Option RoomState :=
  (rooms.find? (fun p => p.1 == roomId)).map (·.2)

/-- Write `roomMap[roomId] = room`, creating the entry if absent. -/
def setRoom (rooms : List (String × RoomState)) (roomId : String)
    (room : RoomState) : List (String × RoomState) :=
  if rooms.any (fun p => p.1 == roomId) then
    rooms.map (fun p => if p.1 == roomId then (roomId, room) else p)
  else
    rooms ++ [(roomId, room)]

/-- Dereference a user pointer: find the user record with the given id. -/
def findUser (users : List UserRec) (uid : Nat) : Option UserRec :=
  users.find? (fun u => u.id == uid)

/-- Apply `f` to the user record with the given id (a mutation through
the shared Go pointer). -/
def updateUser (users : List UserRec) (uid : Nat) (f : UserRec → UserRec) : List UserRec :=
  users.map (fun u => if u.id == uid then f u else u)

/-- `room.sessionByAuth` (`room.go` lines 180-187): linear scan for a
session whose user's auth token matches. -/
def sessionByAuth (users : List UserRec) (room : RoomState) (authToken : String) : Option Session :=
  room.sessions.find? (fun s => ((findUser users s.userId).map (·.authToken)) == some authToken)

/-- `room.user` (`room.go` lines 171-178): linear scan of the session
map for a session whose user has the given id; returns that shared
user.  The model returns the mere existence, callers fetch the record
from the store. -/
def roomHasUser (room : RoomState) (uid : Nat) : Bool :=
  room.sessions.any (fun s => s.userId == uid)

/-- The error returned by `Join` (`room.go` line 20,
`ErrInvalidAuthToken`). -/
inductive RoomError where
  | invalidAuthToken
  deriving Repr, DecidableEq

/-- `Join` (`room.go` lines 32-70).  Validates the byte length of the
token, looks up or creates the room, reuses the user of a session with
the same token or creates a fresh user, appends a fresh session, and
enqueues the `SessionAssigned` / `UsersUpdated` events (event-queue
contents are not modelled).  Returns the updated registry and the new
session's id. -/
def Join (reg : Registry) (roomId authToken : String) :
    Except RoomError (Registry × Nat) :=
  if authToken.utf8ByteSize = 0 ∨ 1024 ≤ authToken.utf8ByteSize then
    .error .invalidAuthToken
  else
    let room := (lookupRoom reg.rooms roomId).getD { sessions := [] }
    match sessionByAuth reg.users room authToken with
    | some s =>
      let sid := reg.nextId
      let room := { room with sessions := room.sessions ++ [{ id := sid, userId := s.userId }] }
      .ok ({ reg with rooms := setRoom reg.rooms roomId room, nextId := sid + 1 }, sid)
    | none =>
      let uid := reg.nextId
      let sid := uid + 1
      let room := { room with sessions := room.sessions ++ [{ id := sid, userId := uid }] }
      .ok ({ reg with
              users := reg.users ++ [newUser uid authToken],
              rooms := setRoom reg.rooms roomId room,
              nextId := sid + 1 }, sid)

/-- `room.kickFromStreams` (`room.go` lines 120-132): for every session
in the room, if its user's loaded stream pointer is non-nil and the
stream's viewer map contains the kicked session's id, close that
viewer's peer connection (external) and delete the entry. -/
def kickFromStreams (users : List UserRec) (roomSessions : List Session)
    (sessId : Nat) : List UserRec :=
  roomSessions.foldl
    (fun us streamerSession =>
      updateUser us streamerSession.userId (fun u =>
        match u.streamSlot with
        | some (some st) =>
          let st := { st with viewers := st.viewers.filter (fun v => v.1 != sessId) }
          { u with streamSlot := some (some st) }
        | _ => u))
    users

/-- `room.stopStream` (`room.go` lines 149-154): atomically swap the
slot to the typed nil pointer; the swapped-out stream, if non-nil, has
its ingress peer connection and every viewer's peer connection closed
(external) and its viewer map drained, after which the stream object is
dropped.  `broadcastUsers` only enqueues events. -/
def stopStream (users : List UserRec) (uid : Nat) : List UserRec :=
  updateUser users uid (fun u => { u with streamSlot := some none })

/-- `Room.RemoveSession` (`room.go` lines 93-117), invoked on a session
of the room named by `roomId`: kicks the session from every stream,
deletes it from the session map, and — when no remaining session
references the same user — stops the user's stream and, if the room
became empty, runs `room.close()` on the (empty) remainder and deletes
the room from the registry.  The removed session's own event channel is
not closed on any path. -/
def RemoveSession (reg : Registry) (roomId : String) (sess : Session) : Registry :=
  match lookupRoom reg.rooms roomId with
  | none => reg
  | some room =>
    let users := kickFromStreams reg.users room.sessions sess.id
    let remaining := room.sessions.filter (fun s => s.id != sess.id)
    if roomHasUser { sessions := remaining } sess.userId then
      { reg with users := users,
                 rooms := setRoom reg.rooms roomId { sessions := remaining } }
    else
      let users := stopStream users sess.userId
      if remaining.isEmpty then
        -- room.close() iterates the (now empty) session map, then the
        -- room is deleted from roomMap under the registry lock.
        { reg with users := users,
                   rooms := reg.rooms.filter (fun p => p.1 != roomId) }
      else
        { reg with users := users,
                   rooms := setRoom reg.rooms roomId { sessions := remaining } }

/-- `room.close` (`room.go` lines 156-163): iterate the session map;
for each session, kick it from the streams of the sessions still
present, stop its user's stream, `close(session.Events)` and delete it.
Returns the updated user store and closed-queue set; the session map is
emptied. -/
def roomClose (users : List UserRec) (closed : List Nat) :
    List Session → List UserRec × List Nat
  | [] => (users, closed)
  | s :: rest =>
    let users := kickFromStreams users (s :: rest) s.id
    let users := stopStream users s.userId
    roomClose users (closed ++ [s.id]) rest

/-- `CloseAll` (`room.go` lines 73-82): for every room in `roomMap`,
run `room.close()` under the room lock.  The room entries themselves
are left in `roomMap`. -/
def CloseAll (reg : Registry) : Registry :=
  let step := fun (acc : List (String × RoomState) × List UserRec × List Nat)
                  (p : String × RoomState) =>
    let done := roomClose acc.2.1 acc.2.2 p.2.sessions
    (acc.1 ++ [(p.1, { sessions := [] })], done.1, done.2)
  let out := reg.rooms.foldl step ([], reg.users, reg.closedQueues)
  { reg with rooms := out.1, users := out.2.1, closedQueues := out.2.2 }

/-- `FindSession` (`room.go` lines 286-298): scan every room's session
map for the given session id. -/
def FindSessionIn (rooms : List (String × RoomState)) (sid : Nat) :
    Option (String × RoomState × Session) :=
  rooms.findSome? (fun p => ((p.2.sessions.find? (fun s => s.id == sid)).map
    (fun s => (p.1, p.2, s))))

/-- Write `st.viewers[sid] = w` (overwriting any existing entry). -/
def setViewer (viewers : Viewers) (sid : Nat) (w : WhepSessionState) : Viewers :=
  if viewers.any (fun v => v.1 == sid) then
    viewers.map (fun v => if v.1 == sid then (sid, w) else v)
  else
    viewers ++ [(sid, w)]

/-- The possible outcomes of `WHEP` (`whep.go` lines 65-157). -/
inductive WhepOutcome where
  /-- The success path: the updated registry after the viewer session
  was inserted into the publisher's viewer map. -/
  | ok (reg : Registry)
  /-- `viewer session not found` (`whep.go` line 68). -/
  | errSessionNotFound
  /-- `streamer not found` (`whep.go` line 76). -/
  | errStreamerNotFound
  /-- `user is not streaming` (`whep.go` line 80): taken only when the
  loaded interface itself is nil, i.e. the `atomic.Value` was never
  stored. -/
  | errNotStreaming
  /-- The loaded interface holds a typed nil `*userStream`: the nil
  check at `whep.go` line 79 passes and `stream.audioTrack` at line 101
  dereferences a nil pointer. -/
  | panicNilStream
  deriving Repr, DecidableEq

/-- `WHEP` (`whep.go` lines 65-157): resolve the viewer session, find
the streamer in that room, load the streamer's stream slot, negotiate
the egress peer connection (external, modelled as succeeding), and
finally insert a fresh `whepSession` into the publisher's viewer map
keyed by the viewer session's id.  The RTCP-reading goroutine and SDP
strings are external and not modelled. -/
def WHEP (reg : Registry) (viewerSessionId streamerId : Nat) : WhepOutcome :=
  match FindSessionIn reg.rooms viewerSessionId with
  | none => .errSessionNotFound
  | some found =>
    let room := found.2.1
    let viewerSess := found.2.2
    if roomHasUser room streamerId then
      match findUser reg.users streamerId with
      | none => .errStreamerNotFound
      | some streamer =>
        match streamer.streamSlot with
        | none => .errNotStreaming
        | some none => .panicNilStream
        | some (some st) =>
          let st := { st with viewers := setViewer st.viewers viewerSess.id newWhepSession }
          let users := updateUser reg.users streamerId
            (fun u => { u with streamSlot := some (some st) })
          .ok { reg with users := users }
    else .errStreamerNotFound

/-- `WHEPChangeLayer` (`whep.go` lines 48-63).  The entire body of the
function is commented out in the source; it returns `nil` having read
and written nothing.  The second component is the returned error
(always absent). -/
def WHEPChangeLayer (reg : Registry) (whepSessionId layer : String) :
    Registry × Option String :=
  (reg, none)

/-! ### The users projection (`room.go` lines 312-318, the event file's
`newUpdateUsersEvent`) -/

/-- `UserMeta`: one entry of the `UsersUpdated` event. -/
structure UserMeta where
  id : Nat
  streaming : Bool
  deriving Repr, DecidableEq

/-- `usersFromSessions` (`room.go` lines 312-318): builds
`map[UserId]*User` by inserting every session's user under its id.
Sessions sharing a user share one Go pointer, so repeated insertion of
the same key rebinds it to the same record; the key set is the set of
distinct user ids.  Go map iteration order is arbitrary; the model
fixes first-insertion order, which the modelled claims (multiplicity
and cardinality) do not depend on. -/
def usersFromSessionsStep (acc : List Nat) (s : Session) : List Nat :=
  if acc.contains s.userId then acc else acc ++ [s.userId]

/-- See `usersFromSessionsStep`: `usersFromSessions` is the fold of the
per-session map insertion over the session list. -/
def usersFromSessions (sessions : List Session) : List Nat :=
  sessions.foldl usersFromSessionsStep []

/-- `newUpdateUsersEvent` (event file, lines 232-241): one `UserMeta`
per entry of `usersFromSessions`, with
`Streaming: user.stream.Load().(*userStream) != nil` — the pointer is
cast before the nil comparison, so a typed nil counts as not
streaming. -/
def newUpdateUsersEvent (users : List UserRec) (sessions : List Session) : List UserMeta :=
  (usersFromSessions sessions).map (fun uid =>
    { id := uid,
      streaming :=
        match findUser users uid with
        | some u =>
          match u.streamSlot with
          | some (some _) => true
          | _ => false
        | none => false })

/-! ### Concrete states used by the claim theorems -/

/-- The registry after one `Join("r", "a")`: user 0, session 1. -/
def regOneJoin : Registry :=
  match Join initRegistry "r" "a" with
  | .ok p => p.1
  | .error _ => initRegistry

/-- After a further `Join("r", "b")`: user 2, session 3.  Neither user
is streaming; both stream slots hold the typed nil stored by
`newUser`. -/
def regTwoJoins : Registry :=
  match Join regOneJoin "r" "b" with
  | .ok p => p.1
  | .error _ => regOneJoin

/-- After a further `Join("r", "a")` reusing user 0: session 2. -/
def regTwoSameTok : Registry :=
  match Join regOneJoin "r" "a" with
  | .ok p => p.1
  | .error _ => regOneJoin

/-- A publisher stream for user 2 whose viewer map holds session 1,
latched on layer `"q"`, with no pending PLI signal. -/
def streamQ : UserStream :=
  { pliChan := 0,
    videoTrackLabels := ["q", "f"],
    viewers := [(1, { currentLayer := "q", sequenceNumber := 5, timestamp := 60000 })] }

/-- `regTwoJoins` with user 2 actively streaming `streamQ`. -/
def regStreaming : Registry :=
  { regTwoJoins with
      users := updateUser regTwoJoins.users 2
        (fun u => { u with streamSlot := some (some streamQ) }) }

/-! ### Claim theorems -/

/-- C1: in `regTwoJoins` the viewer session 1 exists and the streamer
user 2 is in the room, but user 2's stream slot holds the typed nil
stored by `newUser` (it is not streaming).  The claim says `WHEP` then
returns the NotStreaming error with no state change; instead the nil
check of `whep.go` line 79 compares the loaded interface (non-nil, it
holds a typed nil `*userStream`), passes, and the code dereferences
the nil stream pointer at `stream.audioTrack` — a panic, not the
NotStreaming error. -/
theorem whep_nil_stream_bug :
    (FindSessionIn regTwoJoins.rooms 1).isSome = true ∧
    (findUser regTwoJoins.users 2).map (·.streamSlot) = some (some none) ∧
    WHEP regTwoJoins 1 2 = WhepOutcome.panicNilStream ∧
    WHEP regTwoJoins 1 2 ≠ WhepOutcome.errNotStreaming := by decide

/-- C2: `sendVideoPacket` latches the packet's layer when the viewer's
current layer is empty and still forwards the packet; when the current
layer is non-empty and the packet's layer differs, the packet is
dropped with no error and the whole viewer state (layer, sequence
number, timestamp) is returned unchanged. -/
theorem sendVideoPacket_layer_latch (w : WhepSessionState) (pkt : RtpPacket)
    (L : String) (d : Nat) (av1 : Bool) :
    (w.currentLayer = "" →
      (sendVideoPacket w pkt L d av1).1.currentLayer = L ∧
      (sendVideoPacket w pkt L d av1).2.isSome = true) ∧
    (w.currentLayer ≠ "" → L ≠ w.currentLayer →
      sendVideoPacket w pkt L d av1 = (w, none)) := by
  refine ⟨fun h => ?_, fun h hL => ?_⟩
  · simp [sendVideoPacket, h, sendForward]
  · simp [sendVideoPacket, h, hL]

/-- Witness for C2 at concrete inputs: a fresh viewer latches layer
`"q"` and forwards; a viewer latched on `"q"` drops an `"f"` packet
unchanged. -/
theorem sendVideoPacket_layer_latch_witness :
    ((sendVideoPacket newWhepSession ⟨1, 2, 3⟩ "q" 7 false).1.currentLayer = "q" ∧
      (sendVideoPacket newWhepSession ⟨1, 2, 3⟩ "q" 7 false).2.isSome = true) ∧
    sendVideoPacket ⟨"q", 5, 100⟩ ⟨1, 2, 3⟩ "f" 7 false = (⟨"q", 5, 100⟩, none) :=
  ⟨(sendVideoPacket_layer_latch newWhepSession ⟨1, 2, 3⟩ "q" 7 false).1 rfl,
   (sendVideoPacket_layer_latch ⟨"q", 5, 100⟩ ⟨1, 2, 3⟩ "f" 7 false).2
     (by decide) (by decide)⟩

/-- Decomposition of a successful `sendForward`. -/
theorem sendForward_eq (w w' : WhepSessionState) (pkt pkt' : RtpPacket)
    (d : Nat) (b b' : Bool)
    (h : sendForward w pkt d b = (w', some (pkt', b'))) :
    w'.sequenceNumber = (w.sequenceNumber + 1) % 2 ^ 16 ∧
    w'.timestamp = (w.timestamp + d) % 2 ^ 32 ∧
    pkt'.sequenceNumber = w'.sequenceNumber ∧
    pkt'.timestamp = w'.timestamp := by
  unfold sendForward at h
  simp only [Prod.mk.injEq, Option.some.injEq] at h
  obtain ⟨hw, hp, hb⟩ := h
  subst hw
  subst hp
  simp

/-- C3: the viewer session inserted by `WHEP` starts with sequence
number 0, timestamp 50000 and empty layer; and every forwarded
(non-dropped) packet advances the sequence number by exactly 1 modulo
`2 ^ 16` and the timestamp by exactly the supplied `timeDiff` modulo
`2 ^ 32`, the written packet carrying the rewritten values. -/
theorem sendVideoPacket_seq_ts (w w' : WhepSessionState) (pkt pkt' : RtpPacket)
    (L : String) (d : Nat) (av1 av1' : Bool) :
    newWhepSession.sequenceNumber = 0 ∧
    newWhepSession.timestamp = 50000 ∧
    newWhepSession.currentLayer = "" ∧
    (sendVideoPacket w pkt L d av1 = (w', some (pkt', av1')) →
      w'.sequenceNumber = (w.sequenceNumber + 1) % 2 ^ 16 ∧
      w'.timestamp = (w.timestamp + d) % 2 ^ 32 ∧
      pkt'.sequenceNumber = w'.sequenceNumber ∧
      pkt'.timestamp = w'.timestamp) := by
  refine ⟨rfl, rfl, rfl, fun h => ?_⟩
  by_cases h1 : w.currentLayer = ""
  · rw [sendVideoPacket, if_pos h1] at h
    simpa using sendForward_eq _ _ _ _ _ _ _ h
  · rw [sendVideoPacket, if_neg h1] at h
    by_cases h2 : L ≠ w.currentLayer
    · rw [if_pos h2] at h
      simp at h
    · rw [if_neg h2] at h
      exact sendForward_eq _ _ _ _ _ _ _ h

/-- Witness for C3: forwarding one packet with `timeDiff = 7` from the
fresh viewer state yields sequence number 1 and timestamp 50007, both
copied into the written packet. -/
theorem sendVideoPacket_seq_ts_witness :
    (⟨"q", 1, 50007⟩ : WhepSessionState).sequenceNumber =
      (newWhepSession.sequenceNumber + 1) % 2 ^ 16 ∧
    (⟨"q", 1, 50007⟩ : WhepSessionState).timestamp =
      (newWhepSession.timestamp + 7) % 2 ^ 32 ∧
    (⟨1, 50007, 3⟩ : RtpPacket).sequenceNumber =
      (⟨"q", 1, 50007⟩ : WhepSessionState).sequenceNumber ∧
    (⟨1, 50007, 3⟩ : RtpPacket).timestamp =
      (⟨"q", 1, 50007⟩ : WhepSessionState).timestamp :=
  (sendVideoPacket_seq_ts newWhepSession ⟨"q", 1, 50007⟩ ⟨9, 9, 3⟩ ⟨1, 50007, 3⟩
    "q" 7 false false).2.2.2 (by decide)

/-- C4: `Join` fails with `InvalidAuthToken` exactly when the token's
byte length is 0 or at least 1024; any token of byte length in
`[1, 1024)` never draws that error. -/
theorem join_token_validation (reg : Registry) (roomId t : String) :
    Join reg roomId t = Except.error RoomError.invalidAuthToken ↔
      (t.utf8ByteSize = 0 ∨ 1024 ≤ t.utf8ByteSize) := by
  by_cases h : t.utf8ByteSize = 0 ∨ 1024 ≤ t.utf8ByteSize
  · simp [Join, h]
  · simp only [Join, if_neg h, h, iff_false]
    cases hs : sessionByAuth reg.users ((lookupRoom reg.rooms roomId).getD { sessions := [] }) t <;>
      simp [hs]

/-- Witness for C4: the empty token is rejected, a one-byte token is
not. -/
theorem join_token_validation_witness :
    Join initRegistry "r" "" = Except.error RoomError.invalidAuthToken ∧
    Join initRegistry "r" "t" ≠ Except.error RoomError.invalidAuthToken :=
  ⟨(join_token_validation initRegistry "r" "").mpr (Or.inl rfl),
   fun h => absurd ((join_token_validation initRegistry "r" "t").mp h) (by decide)⟩

/-- C5: the claim says no reachable state has a registry entry with an
empty session map.  `CloseAll` (`room.go` lines 73-82) empties every
room's session map via `room.close()` but never deletes the room
entries — contradicting its own doc comment, which promises it
"removes all rooms".  After `Join("r", "a")` followed by `CloseAll`,
room `"r"` is still registered with an empty session map. -/
theorem closeAll_leaves_empty_room :
    lookupRoom (CloseAll regOneJoin).rooms "r" = some { sessions := [] } ∧
    lookupRoom regOneJoin.rooms "r" ≠ none := by decide

/-- C6: the claim says `WHEPChangeLayer` stores the new layer on the
viewer session and delivers one PLI signal.  The function's entire body
is commented out in `whep.go` (lines 48-63): at a state with viewer
session 1 latched on `"q"` and an empty PLI channel, the call returns
`nil` leaving the registry untouched — the layer is still `"q"` and no
PLI signal was delivered. -/
theorem whepChangeLayer_stub :
    WHEPChangeLayer regStreaming "1" "f" = (regStreaming, none) ∧
    ((findUser (WHEPChangeLayer regStreaming "1" "f").1.users 2).map (·.streamSlot)) =
      some (some (some streamQ)) ∧
    streamQ.pliChan = 0 ∧
    (streamQ.viewers.find? (fun v => v.1 == 1)).map (fun v => v.2.currentLayer) =
      some "q" := by decide

/-- C7: the claim says `RemoveSession` removes the session from the
membership map and closes its event queue.  The removal happens, but
no path of `RemoveSession` (`room.go` lines 93-117) ever runs
`close(session.Events)` on the removed session: `room.close()` only
closes sessions still in the map, and the removed session was deleted
first.  Both branches are exercised: removing the only session of a
user (room `"r"` is torn down, no queue closed) and removing one of
two sessions sharing a user (session gone from the map, no queue
closed). -/
theorem removeSession_queue_not_closed :
    (RemoveSession regOneJoin "r" { id := 1, userId := 0 }).closedQueues = [] ∧
    lookupRoom (RemoveSession regOneJoin "r" { id := 1, userId := 0 }).rooms "r" = none ∧
    (RemoveSession regTwoSameTok "r" { id := 1, userId := 0 }).closedQueues = [] ∧
    (lookupRoom (RemoveSession regTwoSameTok "r" { id := 1, userId := 0 }).rooms "r").map
      (fun r => r.sessions) = some [{ id := 2, userId := 0 }] := by decide

/-- C8 counterexample: for the timestamp sequence `[5, 0, 100]` the
claim — every post-first `timeDiff` equals the wrapping uint32
subtraction of the previous timestamp from the current one — fails:
the third packet follows a packet whose timestamp is `0`, so the
`lastTimestamp == 0` guard of `whip.go` line 70 zeroes its `timeDiff`
although the wrapping difference is `100`. -/
theorem videoWriter_timediff_cex :
    ¬ (∀ i, i < 2 → (videoWriterTimeDiffs 0 [5, 0, 100]).getD (i + 1) 0 =
        wrapSub32 (([5, 0, 100] : List Nat).getD (i + 1) 0)
          (([5, 0, 100] : List Nat).getD i 0)) := by decide

/-- Head of the diff stream produced from a given `lastTimestamp`. -/
theorem videoWriterTimeDiffs_head (last t : Nat) (rest : List Nat) :
    (videoWriterTimeDiffs last (t :: rest)).getD 0 0 =
      if last = 0 then 0 else wrapSub32 t last := by
  simp [videoWriterTimeDiffs]

/-- Index-wise characterisation of the diff stream. -/
theorem videoWriterTimeDiffs_getD (tss : List Nat) : ∀ (last i : Nat),
    i + 1 < tss.length →
    (videoWriterTimeDiffs last tss).getD (i + 1) 0 =
      if tss.getD i 0 = 0 then 0
      else wrapSub32 (tss.getD (i + 1) 0) (tss.getD i 0) := by
  induction tss with
  | nil => intro last i h; simp at h
  | cons t rest ih =>
    intro last i h
    match i with
    | 0 =>
      match rest, h with
      | r :: rs, _ =>
        simp only [videoWriterTimeDiffs, List.getD_cons_succ, List.getD_cons_zero]
    | Nat.succ j =>
      have h' : j + 1 < rest.length := by simpa using h
      simp only [videoWriterTimeDiffs, List.getD_cons_succ]
      exact ih t j h'

/-- C8 amended: the first `timeDiff` is 0, and each later `timeDiff`
equals the wrapping uint32 subtraction of the previous packet's
timestamp from the current one except when the previous timestamp is
exactly `0`, in which case it is also zeroed (the code's guard tests
`lastTimestamp == 0`, not "first packet"). -/
theorem videoWriter_timediff_amended (tss : List Nat) :
    (tss ≠ [] → (videoWriterTimeDiffs 0 tss).getD 0 0 = 0) ∧
    (∀ i, i + 1 < tss.length →
      (videoWriterTimeDiffs 0 tss).getD (i + 1) 0 =
        if tss.getD i 0 = 0 then 0
        else wrapSub32 (tss.getD (i + 1) 0) (tss.getD i 0)) := by
  constructor
  · intro h
    match tss, h with
    | t :: rest, _ => simpa using videoWriterTimeDiffs_head 0 t rest
  · intro i h
    exact videoWriterTimeDiffs_getD tss 0 i h

/-- Witness for the amended C8 on `[5, 0, 100]`: the first diff is 0
and the diff after the zero timestamp is zeroed by the guard. -/
theorem videoWriter_timediff_amended_witness :
    (videoWriterTimeDiffs 0 [5, 0, 100]).getD 0 0 = 0 ∧
    (videoWriterTimeDiffs 0 [5, 0, 100]).getD 2 0 =
      (if ([5, 0, 100] : List Nat).getD 1 0 = 0 then 0
       else wrapSub32 (([5, 0, 100] : List Nat).getD 2 0)
         (([5, 0, 100] : List Nat).getD 1 0)) :=
  ⟨(videoWriter_timediff_amended [5, 0, 100]).1 (by decide),
   (videoWriter_timediff_amended [5, 0, 100]).2 1 (by decide)⟩

/-- C9 counterexample: a track whose MIME type is `"AV1"` is flagged
as AV1 by the code (its lower-casing occurs inside `"video/av1"`)
although it does not equal the AV1 MIME type under case-insensitive
comparison — `strings.Contains` is a substring test, not an equality
test. -/
theorem isAV1_cex :
    ¬ (isAV1 "AV1" = true ↔ lowerChars "AV1" = lowerChars mimeTypeAV1) := by decide

/-- `charsHasStart` decides list-prefix extension. -/
theorem charsHasStart_iff (p t : List Char) :
    charsHasStart p t = true ↔ ∃ u, t = p ++ u := by
  induction p generalizing t with
  | nil => simp [charsHasStart]
  | cons c cs ih =>
    cases t with
    | nil => simp [charsHasStart]
    | cons a as =>
      simp only [charsHasStart, Bool.and_eq_true, decide_eq_true_eq, ih,
        List.cons_append, List.cons.injEq]
      constructor
      · rintro ⟨rfl, u, rfl⟩
        exact ⟨u, rfl, rfl⟩
      · rintro ⟨u, rfl, rfl⟩
        exact ⟨rfl, u, rfl⟩

/-- `charsContains` decides contiguous occurrence. -/
theorem charsContains_iff (t p : List Char) :
    charsContains t p = true ↔ OccursIn p t := by
  induction t with
  | nil =>
    simp only [charsContains, List.isEmpty_iff, OccursIn]
    constructor
    · rintro rfl
      exact ⟨[], [], rfl⟩
    · rintro ⟨s, u, h⟩
      cases s <;> simp_all
  | cons a as ih =>
    simp only [charsContains, Bool.or_eq_true, charsHasStart_iff, ih, OccursIn]
    constructor
    · rintro (⟨u, hu⟩ | ⟨s, u, rfl⟩)
      · exact ⟨[], u, by simpa using hu⟩
      · exact ⟨a :: s, u, rfl⟩
    · rintro ⟨s, u, h⟩
      cases s with
      | nil =>
        left
        exact ⟨u, by simpa using h⟩
      | cons b bs =>
        right
        injection h with h1 h2
        exact ⟨bs, u, h2⟩

/-- C9 amended: the AV1 flag is true exactly when the lower-cased
track MIME type occurs contiguously inside the lower-cased AV1 MIME
type `"video/av1"` (so in particular for every proper fragment such as
`"AV1"` or the empty MIME type, not only for a case-insensitive
match). -/
theorem isAV1_substring (mime : String) :
    isAV1 mime = true ↔ OccursIn (lowerChars mime) (lowerChars mimeTypeAV1) :=
  charsContains_iff (lowerChars mimeTypeAV1) (lowerChars mime)

/-- Witness for the amended C9: the exact AV1 MIME type is flagged, and
its lower-casing indeed occurs inside `"video/av1"`. -/
theorem isAV1_substring_witness :
    OccursIn (lowerChars "video/AV1") (lowerChars mimeTypeAV1) :=
  (isAV1_substring "video/AV1").mp (by decide)

/-- The fold underlying `usersFromSessions` preserves `Nodup`. -/
theorem usersFromSessions_foldl_nodup (sessions : List Session) :
    ∀ acc : List Nat, acc.Nodup → (sessions.foldl usersFromSessionsStep acc).Nodup := by
  induction sessions with
  | nil =>
    intro acc h
    simpa using h
  | cons s rest ih =>
    intro acc h
    simp only [List.foldl_cons]
    by_cases hm : s.userId ∈ acc
    · have hstep : usersFromSessionsStep acc s = acc := by
        simp [usersFromSessionsStep, hm]
      rw [hstep]
      exact ih acc h
    · have hstep : usersFromSessionsStep acc s = acc ++ [s.userId] := by
        simp [usersFromSessionsStep, hm]
      rw [hstep]
      refine ih _ ?_
      simp [List.nodup_append, h, hm]

/-- The fold underlying `usersFromSessions` accumulates exactly the
user ids of the sessions. -/
theorem usersFromSessions_foldl_toFinset (sessions : List Session) :
    ∀ acc : List Nat,
      (sessions.foldl usersFromSessionsStep acc).toFinset =
        acc.toFinset ∪ (sessions.map (fun s => s.userId)).toFinset := by
  induction sessions with
  | nil =>
    intro acc
    simp
  | cons s rest ih =>
    intro acc
    simp only [List.foldl_cons, List.map_cons, List.toFinset_cons]
    by_cases hc : acc.contains s.userId
    · have hm : s.userId ∈ acc := by
        simpa [List.elem_iff] using hc
      rw [usersFromSessionsStep, if_pos hc, ih]
      ext x
      simp only [Finset.mem_union, Finset.mem_insert, List.mem_toFinset]
      constructor
      · rintro (hx | hx)
        · exact Or.inl hx
        · exact Or.inr (Or.inr hx)
      · rintro (hx | rfl | hx)
        · exact Or.inl hx
        · exact Or.inl (by simpa using hm)
        · exact Or.inr hx
    · rw [usersFromSessionsStep, if_neg hc, ih]
      ext x
      simp only [Finset.mem_union, Finset.mem_insert, List.mem_toFinset,
        List.mem_append, List.mem_singleton]
      constructor
      · rintro ((hx | rfl) | hx)
        · exact Or.inl hx
        · exact Or.inr (Or.inl rfl)
        · exact Or.inr (Or.inr hx)
      · rintro (hx | rfl | hx)
        · exact Or.inl (Or.inl hx)
        · exact Or.inl (Or.inr rfl)
        · exact Or.inr hx

/-- C10: the `UsersUpdated` event built from a session map lists each
user id exactly once (even when several sessions share a user), and
its length is the number of distinct users referenced by the
sessions. -/
theorem users_event_no_duplicates (users : List UserRec) (sessions : List Session) :
    ((newUpdateUsersEvent users sessions).map (fun m => m.id)).Nodup ∧
    (newUpdateUsersEvent users sessions).length =
      (sessions.map (fun s => s.userId)).toFinset.card := by
  have hnd : (usersFromSessions sessions).Nodup :=
    usersFromSessions_foldl_nodup sessions [] (by simp)
  have hids : (newUpdateUsersEvent users sessions).map (fun m => m.id) =
      usersFromSessions sessions := by
    unfold newUpdateUsersEvent
    rw [List.map_map]
    exact List.map_id _
  have hfin : (usersFromSessions sessions).toFinset =
      (sessions.map (fun s => s.userId)).toFinset := by
    simpa [usersFromSessions] using usersFromSessions_foldl_toFinset sessions []
  refine ⟨by rw [hids]; exact hnd, ?_⟩
  have hlen : (newUpdateUsersEvent users sessions).length =
      (usersFromSessions sessions).length := by
    simp [newUpdateUsersEvent]
  rw [hlen, ← List.toFinset_card_of_nodup hnd, hfin]

end BroadcastBox
